import Mathlib

/-!
# Verification of `generator.c`

A shallow embedding of the single translation unit `src/generator.c`:

```c
int main() {
    int n, min, max, num;
    printf("Сколько чисел сгенерировать: ");
    scanf("%d", &n);
    printf("Минимум: "); scanf("%d", &min);
    printf("Максимум: "); scanf("%d", &max);

    FILE *f = fopen("randoms.txt", "w");
    if (!f) { printf("Ошибка файла\n"); return 1; }
    srand(time(0));
    for (int i = 0; i < n; ++i) {
        num = min + rand() % (max - min + 1);
        fprintf(f, "%d\n", num);
    }
    fclose(f);
    printf("Готово! Числа — в randoms.txt\n");
    return 0;
}
```

Modelling decisions:

* C `int` values are modelled as mathematical `Int`.  The program performs
  no arithmetic that can overflow for the inputs the specification declares
  valid, and the spec describes the integers abstractly.
* C's `%` on `int` is truncated-division remainder, which is `Int.tmod`
  (not Lean's default `Int.emod`).  `rand()` returns a non-negative `int`,
  modelled as a `Nat` drawn from a stream `rand : Nat → Nat` giving the
  result of the i-th `rand()` call after the single `srand` seeding.
* The environment of a run — the three integers `scanf` produces, whether
  `fopen("randoms.txt", "w")` succeeds, and the post-seed `rand()` stream —
  is collected in a structure `Machine`.
* The program itself is a deterministic small-step machine over a program
  counter that follows the source lines; the output file is modelled as the
  list of integers written to it (one `"%d\n"` line each), and every
  observable action is recorded in an event trace.
-/

namespace Generator

/-- The prompt printed before reading `n` (line 7 of the source). -/
def promptCount : String := "Сколько чисел сгенерировать: "

/-- The prompt printed before reading `min` (line 9). -/
def promptMin : String := "Минимум: "

/-- The prompt printed before reading `max` (line 10). -/
def promptMax : String := "Максимум: "

/-- The message printed when `fopen` fails (line 13). -/
def errMsg : String := "Ошибка файла\n"

/-- The success message printed after the file is closed (line 20). -/
def doneMsg : String := "Готово! Числа — в randoms.txt\n"

/-- The environment of one run: the three integers `scanf` reads, whether
`fopen("randoms.txt", "w")` succeeds, and the stream of `rand()` results
produced after the single `srand(time(0))` call (`rand i` is the value of
the i-th call; `rand()` returns a non-negative `int`). -/
structure Machine where
  nIn : Int
  minIn : Int
  maxIn : Int
  fopenOk : Bool
  rand : Nat → Nat

/-- Line 16 of the source: `num = min + rand() % (max - min + 1);`.
C's `%` on `int` is truncated-division remainder, i.e. `Int.tmod`. -/
def genValue (min max : Int) (r : Nat) : Int :=
  min + Int.tmod (r : Int) (max - min + 1)

/-- The sequence of integers the loop on lines 15–18 writes to the file:
one `genValue` per iteration `i = 0, …, n-1` (none when `n ≤ 0`). -/
def outputLines (n min max : Int) (rand : Nat → Nat) : List Int :=
  (List.range n.toNat).map fun i => genValue min max (rand i)

/-- Each `fprintf(f, "%d\n", num)` call renders one line. -/
def renderLine (v : Int) : String := toString v ++ "\n"

/-- The full text content of `randoms.txt` after a run that wrote `ls`. -/
def fileContent (ls : List Int) : String := String.join (ls.map renderLine)

/-- The three C locals read by `scanf`. -/
inductive Var where
  | n
  | min
  | max
  deriving DecidableEq, Repr

/-- Observable events of a run, in program order. -/
inductive Ev where
  | printed (s : String)
  | readVar (x : Var) (v : Int)
  | opened (ok : Bool)
  | seeded
  | write (v : Int)
  | closed
  | exited (c : Nat)
  deriving DecidableEq, Repr

/-- Program counter: one location per statement of `main`. -/
inductive PC where
  | readCount   -- lines 7–8
  | readMin     -- line 9
  | readMax     -- line 10
  | openOut     -- lines 12–13
  | seedGen     -- line 14
  | loop        -- lines 15–18
  | closeOut    -- line 19
  | reportOk    -- lines 20–21
  | reportErr   -- line 13, then-branch
  | halted
  deriving DecidableEq, Repr

/-- Machine state: the C locals, the modelled file, and the event trace.
`i` is the loop counter of line 15; it starts at 0 and only increases while
`(i : Int) < n`, so the C `int i` never overflows and a `Nat` is faithful.
The C locals `n`, `min`, `max` are indeterminate before their `scanf`;
they are modelled starting at 0, a value never observed because each is
written before any use. -/
structure St where
  pc : PC
  n : Int := 0
  min : Int := 0
  max : Int := 0
  i : Nat := 0
  fileOpen : Bool := false
  fileLines : List Int := []
  events : List Ev := []
  exitCode : Option Nat := none
  deriving Repr

/-- The initial state: control at the first statement. -/
def initSt : St := { pc := PC.readCount }

/-- One execution step of `main`, following the source statement by
statement. -/
def step (M : Machine) (s : St) : St :=
  match s.pc with
  | PC.readCount =>
      { s with pc := PC.readMin, n := M.nIn,
               events := s.events ++ [Ev.printed promptCount, Ev.readVar Var.n M.nIn] }
  | PC.readMin =>
      { s with pc := PC.readMax, min := M.minIn,
               events := s.events ++ [Ev.printed promptMin, Ev.readVar Var.min M.minIn] }
  | PC.readMax =>
      { s with pc := PC.openOut, max := M.maxIn,
               events := s.events ++ [Ev.printed promptMax, Ev.readVar Var.max M.maxIn] }
  | PC.openOut =>
      if M.fopenOk then
        { s with pc := PC.seedGen, fileOpen := true,
                 events := s.events ++ [Ev.opened true] }
      else
        { s with pc := PC.reportErr,
                 events := s.events ++ [Ev.opened false] }
  | PC.seedGen =>
      { s with pc := PC.loop, events := s.events ++ [Ev.seeded] }
  | PC.loop =>
      if (s.i : Int) < s.n then
        { s with i := s.i + 1,
                 fileLines := s.fileLines ++ [genValue s.min s.max (M.rand s.i)],
                 events := s.events ++ [Ev.write (genValue s.min s.max (M.rand s.i))] }
      else
        { s with pc := PC.closeOut }
  | PC.closeOut =>
      { s with pc := PC.reportOk, fileOpen := false,
               events := s.events ++ [Ev.closed] }
  | PC.reportOk =>
      { s with pc := PC.halted, exitCode := some 0,
               events := s.events ++ [Ev.printed doneMsg, Ev.exited 0] }
  | PC.reportErr =>
      { s with pc := PC.halted, exitCode := some 1,
               events := s.events ++ [Ev.printed errMsg, Ev.exited 1] }
  | PC.halted => s

/-- Execution of `k` steps. -/
def steps (M : Machine) (k : Nat) (s : St) : St := (step M)^[k] s

/-- Enough steps for any run to finish: 3 reads + open + seed +
(`n.toNat` iterations + 1 exit test) + close + report. -/
def fuel (M : Machine) : Nat := 8 + M.nIn.toNat

/-- The final state of the run of `main` in environment `M`. -/
def run (M : Machine) : St := steps M (fuel M) initSt

/-! ## Basic facts about `steps` -/

lemma steps_zero (M : Machine) (s : St) : steps M 0 s = s := rfl

lemma steps_succ (M : Machine) (k : Nat) (s : St) :
    steps M (k + 1) s = steps M k (step M s) := by
  simp [steps, Function.iterate_succ_apply]

lemma steps_add (M : Machine) (a b : Nat) (s : St) :
    steps M (a + b) s = steps M b (steps M a s) := by
  simp [steps, Nat.add_comm a b, Function.iterate_add_apply]

lemma step_halted (M : Machine) (s : St) (h : s.pc = PC.halted) : step M s = s := by
  unfold step
  rw [h]

lemma steps_halted (M : Machine) (k : Nat) (s : St) (h : s.pc = PC.halted) :
    steps M k s = s := by
  induction k with
  | zero => rfl
  | succ k ih => rw [steps_succ, step_halted M s h, ih]

/-! ## The generation loop -/

/-- Executing the loop of lines 15–18 from a state at `PC.loop` with `k`
iterations remaining: it performs `k` writes and exits to `PC.closeOut`. -/
lemma loop_exec (M : Machine) :
    ∀ (k : Nat) (s : St), s.pc = PC.loop → (s.n - s.i).toNat = k →
    steps M (k + 1) s =
      { s with pc := PC.closeOut, i := s.i + k,
               fileLines := s.fileLines ++
                 (List.range k).map (fun j => genValue s.min s.max (M.rand (s.i + j))),
               events := s.events ++
                 (List.range k).map (fun j => Ev.write (genValue s.min s.max (M.rand (s.i + j)))) } := by
  intro k
  induction k with
  | zero =>
    intro s hpc hrem
    have hge : ¬ ((s.i : Int) < s.n) := by omega
    rw [steps_succ, steps_zero]
    unfold step
    rw [hpc]
    simp [hge]
  | succ k ih =>
    intro s hpc hrem
    have hlt : (s.i : Int) < s.n := by omega
    have hstep : step M s =
        { s with
          i := s.i + 1,
          fileLines := s.fileLines ++ [genValue s.min s.max (M.rand s.i)],
          events := s.events ++ [Ev.write (genValue s.min s.max (M.rand s.i))] } := by
      unfold step
      rw [hpc]
      simp [hlt]
    have hpc' : (step M s).pc = PC.loop := by rw [hstep]; exact hpc
    have hrem2 : ((step M s).n - ((step M s).i : Int)).toNat = k := by
      rw [hstep]
      show ((s.n : Int) - ((s.i + 1 : Nat) : Int)).toNat = k
      omega
    have hIH := ih (step M s) hpc' hrem2
    rw [show k + 1 + 1 = (k + 1) + 1 from rfl, steps_succ, hIH, hstep]
    simp only [List.range_succ_eq_map, List.map_cons, List.map_map, List.append_assoc,
      List.cons_append, List.nil_append, Function.comp_def, Nat.add_zero, St.mk.injEq,
      Nat.succ_eq_add_one, true_and, and_true, eq_self_iff_true]
    refine ⟨by omega, ?_, ?_⟩ <;>
      simp [Nat.add_comm, Nat.add_assoc, Nat.add_left_comm]

/-! ## End-to-end characterization of a run -/

/-- The event trace of a run in which `fopen` succeeds. -/
def okEvents (M : Machine) : List Ev :=
  [Ev.printed promptCount, Ev.readVar Var.n M.nIn,
   Ev.printed promptMin, Ev.readVar Var.min M.minIn,
   Ev.printed promptMax, Ev.readVar Var.max M.maxIn,
   Ev.opened true, Ev.seeded]
  ++ (outputLines M.nIn M.minIn M.maxIn M.rand).map Ev.write
  ++ [Ev.closed, Ev.printed doneMsg, Ev.exited 0]

/-- The event trace of a run in which `fopen` fails. -/
def failEvents (M : Machine) : List Ev :=
  [Ev.printed promptCount, Ev.readVar Var.n M.nIn,
   Ev.printed promptMin, Ev.readVar Var.min M.minIn,
   Ev.printed promptMax, Ev.readVar Var.max M.maxIn,
   Ev.opened false, Ev.printed errMsg, Ev.exited 1]

/-- After five steps a run with a successful `fopen` is at the top of the
loop with the parameters loaded and the file open and empty. -/
lemma steps_five_ok (M : Machine) (hok : M.fopenOk = true) :
    steps M 5 initSt =
      { pc := PC.loop, n := M.nIn, min := M.minIn, max := M.maxIn, i := 0,
        fileOpen := true, fileLines := [],
        events := [Ev.printed promptCount, Ev.readVar Var.n M.nIn,
                   Ev.printed promptMin, Ev.readVar Var.min M.minIn,
                   Ev.printed promptMax, Ev.readVar Var.max M.maxIn,
                   Ev.opened true, Ev.seeded],
        exitCode := none } := by
  have h : steps M 5 initSt = step M (step M (step M (step M (step M initSt)))) := rfl
  rw [h]
  simp [initSt, step, hok]

/-- After five steps a run with a failed `fopen` has already halted with
exit code 1 and an empty file model. -/
lemma steps_five_fail (M : Machine) (hok : M.fopenOk = false) :
    steps M 5 initSt =
      { pc := PC.halted, n := M.nIn, min := M.minIn, max := M.maxIn, i := 0,
        fileOpen := false, fileLines := [],
        events := failEvents M, exitCode := some 1 } := by
  have h : steps M 5 initSt = step M (step M (step M (step M (step M initSt)))) := rfl
  rw [h]
  simp [initSt, step, hok, failEvents]

/-- The final state of a run in which `fopen` succeeds. -/
lemma run_ok (M : Machine) (hok : M.fopenOk = true) :
    run M = { pc := PC.halted, n := M.nIn, min := M.minIn, max := M.maxIn,
              i := M.nIn.toNat, fileOpen := false,
              fileLines := outputLines M.nIn M.minIn M.maxIn M.rand,
              events := okEvents M, exitCode := some 0 } := by
  unfold run fuel
  rw [show 8 + M.nIn.toNat = 5 + ((M.nIn.toNat + 1) + 2) by omega,
    steps_add M 5 ((M.nIn.toNat + 1) + 2), steps_five_ok M hok,
    steps_add M (M.nIn.toNat + 1) 2]
  rw [loop_exec M M.nIn.toNat _ rfl
    (show ((M.nIn : Int) - ((0 : Nat) : Int)).toNat = M.nIn.toNat by omega)]
  have h2 : ∀ x : St, steps M 2 x = step M (step M x) := fun _ => rfl
  rw [h2]
  simp [step, outputLines, okEvents, List.map_map, Function.comp_def]

/-- The final state of a run in which `fopen` fails. -/
lemma run_fail (M : Machine) (hok : M.fopenOk = false) :
    run M = { pc := PC.halted, n := M.nIn, min := M.minIn, max := M.maxIn,
              i := 0, fileOpen := false, fileLines := [],
              events := failEvents M, exitCode := some 1 } := by
  unfold run fuel
  rw [show 8 + M.nIn.toNat = 5 + (3 + M.nIn.toNat) by omega,
    steps_add M 5 (3 + M.nIn.toNat), steps_five_fail M hok,
    steps_halted]
  rfl

/-! ## Arithmetic facts about one generated value -/

/-- For `min ≤ max`, line 16 produces a value in `[min, max]`: the divisor
`max - min + 1` is positive and the `rand()` result is non-negative, so the
truncated remainder lies in `[0, max - min + 1)`. -/
lemma genValue_mem (min max : Int) (hmm : min ≤ max) (r : Nat) :
    min ≤ genValue min max r ∧ genValue min max r ≤ max := by
  unfold genValue
  have hpos : 0 < max - min + 1 := by omega
  have h1 : 0 ≤ Int.tmod (r : Int) (max - min + 1) :=
    Int.tmod_nonneg _ (Int.natCast_nonneg r)
  have h2 : Int.tmod (r : Int) (max - min + 1) < max - min + 1 :=
    Int.tmod_lt_of_pos _ hpos
  omega

/-- For a one-point range the divisor is 1, so the value is always `min`. -/
lemma genValue_const (a : Int) (r : Nat) : genValue a a r = a := by
  simp [genValue]

/-! ## Immutability of the parameters after the reads -/

/-- After the three `scanf` calls, the C locals `n`, `min`, `max` hold the
values read, and control never returns to a read statement. -/
def paramInv (M : Machine) (s : St) : Prop :=
  s.n = M.nIn ∧ s.min = M.minIn ∧ s.max = M.maxIn ∧
  s.pc ≠ PC.readCount ∧ s.pc ≠ PC.readMin ∧ s.pc ≠ PC.readMax

lemma paramInv_step (M : Machine) (s : St) (h : paramInv M s) :
    paramInv M (step M s) := by
  obtain ⟨h1, h2, h3, h4, h5, h6⟩ := h
  unfold paramInv step
  cases hpc : s.pc
  case readCount => exact absurd hpc h4
  case readMin => exact absurd hpc h5
  case readMax => exact absurd hpc h6
  case openOut =>
    by_cases hok : M.fopenOk = true <;> simp [hok, h1, h2, h3]
  case loop =>
    by_cases hlt : (s.i : Int) < s.n
    · simp_all
    · rw [h1] at hlt
      simp [hlt, h1, h2, h3, hpc]
  all_goals simp [h1, h2, h3, hpc]

lemma steps_three (M : Machine) :
    steps M 3 initSt =
      { pc := PC.openOut, n := M.nIn, min := M.minIn, max := M.maxIn, i := 0,
        fileOpen := false, fileLines := [],
        events := [Ev.printed promptCount, Ev.readVar Var.n M.nIn,
                   Ev.printed promptMin, Ev.readVar Var.min M.minIn,
                   Ev.printed promptMax, Ev.readVar Var.max M.maxIn],
        exitCode := none } := by
  have h : steps M 3 initSt = step M (step M (step M initSt)) := rfl
  rw [h]
  simp [initSt, step]

lemma steps_succ' (M : Machine) (k : Nat) (s : St) :
    steps M (k + 1) s = step M (steps M k s) := by
  simp [steps, Function.iterate_succ_apply']

/-- From the fourth step on, the parameters hold the values read. -/
lemma paramInv_steps (M : Machine) (k : Nat) :
    paramInv M (steps M (3 + k) initSt) := by
  induction k with
  | zero =>
    rw [show 3 + 0 = 3 from rfl, steps_three]
    exact ⟨rfl, rfl, rfl, by simp, by simp, by simp⟩
  | succ k ih =>
    rw [show 3 + (k + 1) = (3 + k) + 1 by omega, steps_succ']
    exact paramInv_step M _ ih

/-! ## Counting helpers for the event trace -/

lemma count_seeded_writes (ls : List Int) : (ls.map Ev.write).count Ev.seeded = 0 := by
  simp [List.count_eq_zero, List.mem_map]

lemma count_readVar_writes (ls : List Int) (x : Var) (v : Int) :
    (ls.map Ev.write).count (Ev.readVar x v) = 0 := by
  simp [List.count_eq_zero, List.mem_map]

/-! ## The claims -/

/-- C1: for every input triple with `count ≥ 0` and `min ≤ max`, after a
successful run the output file contains exactly `count` lines, and every
line is an integer `v` with `min ≤ v ≤ max`. -/
theorem c1_valid_range (M : Machine) (hok : M.fopenOk = true) (hn : 0 ≤ M.nIn)
    (hmm : M.minIn ≤ M.maxIn) :
    ((run M).fileLines.length : Int) = M.nIn
    ∧ ∀ v ∈ (run M).fileLines, M.minIn ≤ v ∧ v ≤ M.maxIn := by
  rw [run_ok M hok]
  constructor
  · simp only [outputLines, List.length_map, List.length_range]
    omega
  · intro v hv
    simp only [outputLines, List.mem_map, List.mem_range] at hv
    obtain ⟨i, _, rfl⟩ := hv
    exact genValue_mem M.minIn M.maxIn hmm _

/-- Witness for C1 at `count = 5`, `min = 1`, `max = 6`. -/
theorem c1_witness :
    (((run ⟨5, 1, 6, true, fun i => i * 7 + 3⟩).fileLines.length : Int) = 5
    ∧ ∀ v ∈ (run ⟨5, 1, 6, true, fun i => i * 7 + 3⟩).fileLines, (1 : Int) ≤ v ∧ v ≤ 6) :=
  c1_valid_range ⟨5, 1, 6, true, fun i => i * 7 + 3⟩ rfl (by decide) (by decide)

/-- C2: on `fopen` failure the program prints the error message, writes no
data and exits with code 1; on success it prints the success message and
exits with code 0; no other exit code is possible. -/
theorem c2_exit_codes (M : Machine) :
    ((run M).exitCode = some 0 ∨ (run M).exitCode = some 1)
    ∧ (M.fopenOk = false →
        (run M).exitCode = some 1 ∧ (run M).fileLines = []
        ∧ Ev.printed errMsg ∈ (run M).events)
    ∧ (M.fopenOk = true →
        (run M).exitCode = some 0 ∧ Ev.printed doneMsg ∈ (run M).events) := by
  cases hok : M.fopenOk
  · rw [run_fail M hok]
    simp [failEvents, hok]
  · rw [run_ok M hok]
    simp [okEvents, hok]

/-- Witness for C2: one failing and one succeeding environment. -/
theorem c2_witness :
    ((run ⟨5, 1, 6, false, fun _ => 0⟩).exitCode = some 1
      ∧ (run ⟨5, 1, 6, false, fun _ => 0⟩).fileLines = []
      ∧ Ev.printed errMsg ∈ (run ⟨5, 1, 6, false, fun _ => 0⟩).events)
    ∧ ((run ⟨5, 1, 6, true, fun _ => 0⟩).exitCode = some 0
      ∧ Ev.printed doneMsg ∈ (run ⟨5, 1, 6, true, fun _ => 0⟩).events) :=
  ⟨(c2_exit_codes ⟨5, 1, 6, false, fun _ => 0⟩).2.1 rfl,
   (c2_exit_codes ⟨5, 1, 6, true, fun _ => 0⟩).2.2 rfl⟩

/-- C3: the generator is seeded exactly once, and the i-th written value is
`min + (rᵢ mod (max - min + 1))` where `rᵢ` is the i-th `rand()` draw and
`mod` is C's truncated remainder. -/
theorem c3_formula (M : Machine) (hok : M.fopenOk = true) :
    (run M).events.count Ev.seeded = 1
    ∧ (run M).fileLines = (List.range M.nIn.toNat).map
        (fun i => M.minIn + Int.tmod (M.rand i : Int) (M.maxIn - M.minIn + 1)) := by
  rw [run_ok M hok]
  constructor
  · simp [okEvents, List.count_append, List.count_cons, count_seeded_writes]
  · simp [outputLines, genValue]

/-- Witness for C3 at `count = 2`, `min = 1`, `max = 6`. -/
theorem c3_witness :
    (run ⟨2, 1, 6, true, fun i => i * 7 + 3⟩).events.count Ev.seeded = 1
    ∧ (run ⟨2, 1, 6, true, fun i => i * 7 + 3⟩).fileLines
        = (List.range 2).map (fun i => 1 + Int.tmod ((i * 7 + 3 : Nat) : Int) (6 - 1 + 1)) :=
  c3_formula ⟨2, 1, 6, true, fun i => i * 7 + 3⟩ rfl

/-- C4: for `count = 0` the file is opened, gets zero lines, and the
program still reports success and exits with code 0. -/
theorem c4_count_zero (M : Machine) (hok : M.fopenOk = true) (h0 : M.nIn = 0) :
    (run M).fileLines = [] ∧ Ev.opened true ∈ (run M).events
    ∧ (run M).exitCode = some 0 ∧ Ev.printed doneMsg ∈ (run M).events := by
  rw [run_ok M hok]
  simp [outputLines, okEvents, h0]

/-- Witness for C4 at `count = 0`. -/
theorem c4_witness :
    (run ⟨0, 3, 8, true, fun _ => 5⟩).fileLines = []
    ∧ Ev.opened true ∈ (run ⟨0, 3, 8, true, fun _ => 5⟩).events
    ∧ (run ⟨0, 3, 8, true, fun _ => 5⟩).exitCode = some 0
    ∧ Ev.printed doneMsg ∈ (run ⟨0, 3, 8, true, fun _ => 5⟩).events :=
  c4_count_zero ⟨0, 3, 8, true, fun _ => 5⟩ rfl rfl

/-- C5: for `min = max` every value written to the output file equals
`min`. -/
theorem c5_min_eq_max (M : Machine) (h : M.minIn = M.maxIn) :
    ∀ v ∈ (run M).fileLines, v = M.minIn := by
  cases hok : M.fopenOk
  · rw [run_fail M hok]
    simp
  · rw [run_ok M hok]
    intro v hv
    simp only [outputLines, List.mem_map, List.mem_range] at hv
    obtain ⟨i, _, rfl⟩ := hv
    rw [← h]
    exact genValue_const M.minIn _

/-- Witness for C5 at `min = max = 7`. -/
theorem c5_witness : (7 : Int) = 7 :=
  c5_min_eq_max ⟨1, 7, 7, true, fun _ => 3⟩ rfl 7 (by decide)

/-- C6: a negative `count` produces zero output lines and the program
still reports success. -/
theorem c6_negative_count (M : Machine) (hn : M.nIn < 0) (hok : M.fopenOk = true) :
    (run M).fileLines = [] ∧ (run M).exitCode = some 0
    ∧ Ev.printed doneMsg ∈ (run M).events := by
  rw [run_ok M hok]
  have h0 : M.nIn.toNat = 0 := by omega
  simp [outputLines, okEvents, h0]

/-- Witness for C6 at `count = -3`. -/
theorem c6_witness :
    (run ⟨-3, 0, 9, true, fun _ => 0⟩).fileLines = []
    ∧ (run ⟨-3, 0, 9, true, fun _ => 0⟩).exitCode = some 0
    ∧ Ev.printed doneMsg ∈ (run ⟨-3, 0, 9, true, fun _ => 0⟩).events :=
  c6_negative_count ⟨-3, 0, 9, true, fun _ => 0⟩ (by decide) rfl

/-- C7: the run is strictly sequential — the three reads complete before
the open; on open failure the program exits with code 1 without seeding,
writing or closing; on success it seeds, performs all writes, closes, then
reports success and exits with code 0; every write lies between the open
and the close. -/
theorem c7_sequential_order (M : Machine) :
    ∃ ws : List Int,
      (run M).events =
        [Ev.printed promptCount, Ev.readVar Var.n M.nIn,
         Ev.printed promptMin, Ev.readVar Var.min M.minIn,
         Ev.printed promptMax, Ev.readVar Var.max M.maxIn,
         Ev.opened M.fopenOk]
        ++ (if M.fopenOk then
              [Ev.seeded] ++ ws.map Ev.write ++ [Ev.closed, Ev.printed doneMsg, Ev.exited 0]
            else [Ev.printed errMsg, Ev.exited 1]) := by
  cases hok : M.fopenOk
  · exact ⟨[], by rw [run_fail M hok]; simp [failEvents]⟩
  · exact ⟨outputLines M.nIn M.minIn M.maxIn M.rand,
      by rw [run_ok M hok]; simp [okEvents, outputLines]⟩

/-- C8: the parameters are each read exactly once, and from the moment the
reads are done (step 3 on) the variables `n`, `min`, `max` always hold the
values read. -/
theorem c8_params_immutable (M : Machine) :
    (∀ k, (steps M (3 + k) initSt).n = M.nIn
      ∧ (steps M (3 + k) initSt).min = M.minIn
      ∧ (steps M (3 + k) initSt).max = M.maxIn)
    ∧ (run M).events.count (Ev.readVar Var.n M.nIn) = 1
    ∧ (run M).events.count (Ev.readVar Var.min M.minIn) = 1
    ∧ (run M).events.count (Ev.readVar Var.max M.maxIn) = 1 := by
  refine ⟨fun k => ?_, ?_⟩
  · obtain ⟨h1, h2, h3, _⟩ := paramInv_steps M k
    exact ⟨h1, h2, h3⟩
  · cases hok : M.fopenOk
    · rw [run_fail M hok]
      simp [failEvents, List.count_cons]
    · rw [run_ok M hok]
      simp [okEvents, List.count_append, List.count_cons, count_readVar_writes]

/-- C9: the loop performs exactly `max(count, 0)` iterations (one write
each) and every run reaches the halted state — no input runs forever. -/
theorem c9_termination (M : Machine) :
    (M.fopenOk = true → ((run M).fileLines.length : Int) = max M.nIn 0)
    ∧ ∀ k, fuel M ≤ k → (steps M k initSt).pc = PC.halted := by
  constructor
  · intro hok
    rw [run_ok M hok]
    simp only [outputLines, List.length_map, List.length_range]
    omega
  · intro k hk
    have hsplit : steps M k initSt = steps M (fuel M + (k - fuel M)) initSt := by
      congr 1
      omega
    have hrun : (run M).pc = PC.halted := by
      cases hok : M.fopenOk
      · rw [run_fail M hok]
      · rw [run_ok M hok]
    rw [hsplit, steps_add, show steps M (fuel M) initSt = run M from rfl,
      steps_halted M _ _ hrun]
    exact hrun

/-- Witness for C9 at `count = 2` (so `fuel = 10`). -/
theorem c9_witness :
    ((run ⟨2, 0, 9, true, fun i => i⟩).fileLines.length : Int) = max 2 0
    ∧ (steps ⟨2, 0, 9, true, fun i => i⟩ 10 initSt).pc = PC.halted :=
  ⟨(c9_termination ⟨2, 0, 9, true, fun i => i⟩).1 rfl,
   (c9_termination ⟨2, 0, 9, true, fun i => i⟩).2 10 (by decide)⟩

/-- C10: the output is a deterministic function of the parameters and the
post-seed random stream — two runs with the same stream and the same
parameters give identical file contents and identical exit codes. -/
theorem c10_deterministic (M1 M2 : Machine) (hn : M1.nIn = M2.nIn)
    (hmin : M1.minIn = M2.minIn) (hmax : M1.maxIn = M2.maxIn)
    (ho : M1.fopenOk = M2.fopenOk) (hr : M1.rand = M2.rand) :
    fileContent (run M1).fileLines = fileContent (run M2).fileLines
    ∧ (run M1).exitCode = (run M2).exitCode := by
  obtain ⟨n1, mi1, ma1, o1, r1⟩ := M1
  obtain ⟨n2, mi2, ma2, o2, r2⟩ := M2
  dsimp only at hn hmin hmax ho hr
  subst hn
  subst hmin
  subst hmax
  subst ho
  subst hr
  exact ⟨rfl, rfl⟩

/-- Witness for C10: two equal environments yield the same file text and
exit code. -/
theorem c10_witness :
    fileContent (run ⟨2, 0, 9, true, fun i => i⟩).fileLines
      = fileContent (run ⟨2, 0, 9, true, fun i => i⟩).fileLines
    ∧ (run ⟨2, 0, 9, true, fun i => i⟩).exitCode
      = (run ⟨2, 0, 9, true, fun i => i⟩).exitCode :=
  c10_deterministic ⟨2, 0, 9, true, fun i => i⟩ ⟨2, 0, 9, true, fun i => i⟩
    rfl rfl rfl rfl rfl

end Generator
